import Mathlib

/-!
# Verification of the ipsae batch pipeline

A shallow embedding of `run_ipsae_batch.py`: discovery of PAE/CIF structure
pairs, invocation of the external scoring tool, parsing/aggregation of report
tables, and the final partitioned CSV writes.  External effects (the
filesystem, the child process, the pandas parser) are modelled by explicit
data passed in: a list of existing paths, an invocation outcome, and a parse
oracle.  Tables are modelled as association-list rows; a missing cell (pandas
NaN) is `Option.none`, and `cellEq` mirrors pandas scalar equality, under
which a missing value compares unequal to everything, itself included.
-/

namespace IpsaeBatch

/-! ## String and path helpers (models of `os.path` and `str.replace`) -/

/-- Characters of the basename: everything after the last slash
(model of `os.path.basename`). -/
def basenameCs (cs : List Char) : List Char :=
  (cs.reverse.takeWhile (fun c => c ≠ '/')).reverse

/-- Model of `os.path.basename`. -/
def basename (p : String) : String :=
  ⟨basenameCs p.toList⟩

/-- Strip trailing slashes from a character list. -/
def stripTrailingSlashes (cs : List Char) : List Char :=
  (cs.reverse.dropWhile (fun c => c = '/')).reverse

/-- Model of `os.path.dirname`: the part before the last slash, with
trailing slashes stripped unless the result is only slashes. -/
def dirname (p : String) : String :=
  let d := (p.toList.reverse.dropWhile (fun c => c ≠ '/')).reverse
  if d.all (fun c => c = '/') then ⟨d⟩ else ⟨stripTrailingSlashes d⟩

/-- Model of `os.path.join` for two components: an absolute second component
wins; otherwise insert a slash unless the first part is empty or already ends
with one. -/
def pathJoin (a b : String) : String :=
  match b.toList with
  | '/' :: _ => b
  | _ =>
    if a.toList = [] then b
    else if a.toList.getLast? = some '/' then a ++ b
    else a ++ "/" ++ b

/-- Index of the last `'.'` in a character list, if any. -/
def lastDotIdx (cs : List Char) : Option Nat :=
  match cs.reverse.findIdx? (fun c => c = '.') with
  | none => none
  | some j => some (cs.length - 1 - j)

/-- Stem of a basename: model of `os.path.splitext(...)[0]` on a path without
slashes.  The extension starts at the last dot, except that a basename whose
characters before that dot are all dots is left whole. -/
def stemCs (cs : List Char) : List Char :=
  match lastDotIdx cs with
  | none => cs
  | some i => if (cs.take i).all (fun c => c = '.') then cs else cs.take i

/-- Model of `os.path.splitext(basename)[0]`. -/
def splitextStem (s : String) : String :=
  ⟨stemCs s.toList⟩

/-- Fueled worker for `pyReplace`; replaces non-overlapping occurrences left
to right, as Python `str.replace` does for a non-empty pattern. -/
def replaceAux : Nat → List Char → List Char → List Char → List Char
  | 0, _, _, _ => []
  | _ + 1, [], _, _ => []
  | n + 1, c :: rest, old, new =>
    if old.isPrefixOf (c :: rest) then
      new ++ replaceAux n ((c :: rest).drop old.length) old new
    else
      c :: replaceAux n rest old new

/-- Model of Python `str.replace` for a non-empty pattern: every
non-overlapping occurrence, scanned left to right, is replaced. -/
def pyReplace (s old new : String) : String :=
  if old.toList = [] then s
  else ⟨replaceAux s.toList.length s.toList old.toList new.toList⟩

/-- Whether `s` starts with `p` (model of `str.startswith`). -/
def strStarts (s p : String) : Bool :=
  p.toList.isPrefixOf s.toList

/-- Whether `s` ends with `p` (model of `str.endswith`). -/
def strEnds (s p : String) : Bool :=
  p.toList.reverse.isPrefixOf s.toList.reverse

/-! ## Pair discovery (`find_boltz_structures`) -/

/-- One entry of the `predictions` directory: its name, whether it is a
directory, and (when it is) the names of the files it contains. -/
structure DirEntry where
  name : String
  isDir : Bool
  files : List String
  deriving DecidableEq

/-- The part of the filesystem the discoverer looks at: whether
`<out_dir>/predictions` exists, and its listing when it does. -/
structure Layout where
  predictionsExists : Bool
  entries : List DirEntry
  deriving DecidableEq

/-- A matched PAE/CIF pair, as the tuple `(pae_file, cif_file, input_name)`
appended by `find_boltz_structures`. -/
structure Pair where
  paeFile : String
  cifFile : String
  inputName : String
  deriving DecidableEq

/-- The fixed glob stem `pae_<folder>_model_` of the PAE pattern. -/
def paePat (folder : String) : String :=
  "pae_" ++ folder ++ "_model_"

/-- Does a file name match the glob `pae_<folder>_model_*.npz`?  The star may
match the empty string, so the name decomposes as the stem, anything, and
`.npz`. -/
def matchesPae (folder name : String) : Bool :=
  strStarts name (paePat folder) && strEnds name ".npz" &&
    Nat.ble ((paePat folder).toList.length + 4) name.toList.length

/-- The `model_*` part of a PAE basename: the code strips the prefix and the
extension with `str.replace`, which removes every occurrence. -/
def modelPart (folder paeBasename : String) : String :=
  pyReplace (pyReplace paeBasename ("pae_" ++ folder ++ "_") "") ".npz" ""

/-- Name of the CIF sibling the code requires for a PAE basename. -/
def cifNameFor (folder paeBasename : String) : String :=
  folder ++ "_" ++ modelPart folder paeBasename ++ ".cif"

/-- Full path of the folder `<out_dir>/predictions/<folder>`. -/
def folderPath (outDir folder : String) : String :=
  pathJoin (pathJoin outDir "predictions") folder

/-- The pair built from one matched PAE basename. -/
def mkPair (outDir folder paeBasename : String) : Pair :=
  ⟨pathJoin (folderPath outDir folder) paeBasename,
   pathJoin (folderPath outDir folder) (cifNameFor folder paeBasename),
   folder⟩

/-- The per-folder loop of `find_boltz_structures`: for each glob-matched PAE
basename, emit a pair when the CIF sibling is listed, otherwise count one
"CIF file not found" warning. -/
def scanFolder (outDir folder : String) :
    List String → List String → List Pair × Nat
  | [], _ => ([], 0)
  | pb :: rest, allFiles =>
    let acc := scanFolder outDir folder rest allFiles
    if allFiles.contains (cifNameFor folder pb) then
      (mkPair outDir folder pb :: acc.1, acc.2)
    else
      (acc.1, acc.2 + 1)

/-- The outer loop of `find_boltz_structures` over the `predictions`
entries: non-directories are skipped, and each folder contributes its
scanned pairs and warnings in listing order. -/
def findGo (outDir : String) : List DirEntry → List Pair × Nat
  | [] => ([], 0)
  | e :: rest =>
    let acc := findGo outDir rest
    if !e.isDir then acc
    else
      let s := scanFolder outDir e.name
        (e.files.filter (matchesPae e.name)) e.files
      (s.1 ++ acc.1, s.2 + acc.2)

/-- Model of `find_boltz_structures`: an empty result when `predictions` is
missing, otherwise the concatenated per-folder scans over the directory
entries, together with the total number of missing-CIF warnings. -/
def find_boltz_structures (outDir : String) (layout : Layout) :
    List Pair × Nat :=
  if !layout.predictionsExists then ([], 0)
  else findGo outDir layout.entries

/-- Number of well-formed PAE files of one folder: glob-matched and with the
CIF sibling present. -/
def wellFormedPaeCount (e : DirEntry) : Nat :=
  ((e.files.filter (matchesPae e.name)).filter
    (fun pb => e.files.contains (cifNameFor e.name pb))).length

/-- Number of orphan PAE files of one folder: glob-matched but missing the
CIF sibling. -/
def orphanPaeCount (e : DirEntry) : Nat :=
  ((e.files.filter (matchesPae e.name)).filter
    (fun pb => !(e.files.contains (cifNameFor e.name pb)))).length

/-- Total number of well-formed PAE files over the directory entries. -/
def totalWellFormed (layout : Layout) : Nat :=
  ((layout.entries.filter (fun e => e.isDir)).map wellFormedPaeCount).sum

/-- Total number of orphan PAE files over the directory entries. -/
def totalOrphan (layout : Layout) : Nat :=
  ((layout.entries.filter (fun e => e.isDir)).map orphanPaeCount).sum

/-! ## Tables (pandas DataFrames, modelled as association-list rows) -/

/-- One row: the cells present in it, as (column, value) pairs in column
order.  A column absent from a row reads as `none` (pandas NaN). -/
abbrev Row := List (String × String)

/-- Pandas scalar equality as used by `df[col] == v`: two present values
compare by string equality, and a missing value (NaN) is unequal to
everything, itself included. -/
def cellEq : Option String → Option String → Bool
  | some a, some b => a == b
  | _, _ => false

/-- A parsed table: its column names in order and its rows. -/
structure ResultTable where
  cols : List String
  rows : List Row
  deriving DecidableEq

/-- A table is aligned when every row lists exactly the table's columns, in
order; tables parsed from a whitespace-delimited report are aligned. -/
def Aligned (t : ResultTable) : Prop :=
  ∀ r ∈ t.rows, r.map Prod.fst = t.cols

/-- Model of `df[c] = v` at row level: overwrite the value under an existing
key, otherwise append the new column's cell. -/
def setCell (r : Row) (c v : String) : Row :=
  if r.any (fun pr => pr.1 == c) then
    r.map (fun pr => if pr.1 == c then (pr.1, v) else pr)
  else r ++ [(c, v)]

/-- Model of `df[c] = v` at table level. -/
def setTableCol (t : ResultTable) (c v : String) : ResultTable :=
  ⟨if t.cols.contains c then t.cols else t.cols ++ [c],
   t.rows.map (fun r => setCell r c v)⟩

/-- The three provenance assignments of the main loop: `input_name`,
`pae_file` and `cif_file` (group name and the two source basenames). -/
def addMeta (t : ResultTable) (p : Pair) : ResultTable :=
  setTableCol
    (setTableCol (setTableCol t "input_name" p.inputName)
      "pae_file" (basename p.paeFile))
    "cif_file" (basename p.cifFile)

/-- Model of `pd.concat(..., ignore_index=True)`: columns are the union by
name in order of first appearance, rows are concatenated; a row reads `none`
under any column its source table lacked. -/
def concatTables (ts : List ResultTable) : ResultTable :=
  ⟨ts.foldl (fun acc t => acc ++ t.cols.filter (fun c => !(acc.contains c))) [],
   (ts.map ResultTable.rows).flatten⟩

/-! ## Scorer invoker (`run_ipsae`) -/

/-- What the child process did: a clean exit, a `CalledProcessError` with its
captured output, or any other exception raised during invocation. -/
inductive InvokeOutcome where
  | ok
  | calledProcessError (stdout stderr : String)
  | unexpectedError (msg : String)
  deriving DecidableEq

/-- What `run_ipsae` produced: the command it assembled, the located report
file (or `none` for failure), and whether the missing-output warning was
printed. -/
structure InvokeResult where
  cmd : List String
  reportFile : Option String
  warned : Bool
  deriving DecidableEq

/-- The expected report name `<cif stem>_<pae>_<dist>.txt`.  In the source
both the command arguments and this name format the cutoff floats with
`str`, so the same strings `paeStr`/`distStr` appear in both places. -/
def expectedReportName (cifFile paeStr distStr : String) : String :=
  splitextStem (basename cifFile) ++ "_" ++ paeStr ++ "_" ++ distStr ++ ".txt"

/-- Model of `run_ipsae`.  `fs` lists the paths that exist when the output is
searched for (a bare filename is a path relative to the working directory).
On success the expected report name is tried in the working directory first,
then next to the CIF file; if neither exists a warning is printed and the
pair fails.  Either error branch returns failure without a warning print
(it logs the error instead). -/
def run_ipsae (fs : List String) (outcome : InvokeOutcome)
    (script paeFile cifFile paeStr distStr : String) : InvokeResult :=
  let cmd := ["python", script, paeFile, cifFile, paeStr, distStr]
  match outcome with
  | .ok =>
    let outputTxt := expectedReportName cifFile paeStr distStr
    let currentDirOutput := outputTxt
    let cifDirOutput := pathJoin (dirname cifFile) outputTxt
    if fs.contains currentDirOutput then ⟨cmd, some currentDirOutput, false⟩
    else if fs.contains cifDirOutput then ⟨cmd, some cifDirOutput, false⟩
    else ⟨cmd, none, true⟩
  | .calledProcessError _ _ => ⟨cmd, none, false⟩
  | .unexpectedError _ => ⟨cmd, none, false⟩

/-! ## Per-pair processing and the main pipeline -/

/-- The environment one pair is processed in: the invocation outcome, the
filesystem snapshot, and the parse oracle (`None` for a pandas parse
failure). -/
structure PairEnv where
  outcome : InvokeOutcome
  fs : List String
  parse : String → Option ResultTable

/-- What one iteration of the main loop did for its pair: the tagged table it
appended to `all_results` (or `none`), and whether the working-directory
report file was deleted. -/
structure PairStep where
  contributed : Option ResultTable
  cleanedUp : Bool
  deriving DecidableEq

/-- One iteration of the main loop: invoke, parse, require a non-empty
table, tag it with provenance, and clean up a working-directory report
file. -/
def processPair (env : PairEnv) (script paeStr distStr : String)
    (p : Pair) : PairStep :=
  match (run_ipsae env.fs env.outcome script p.paeFile p.cifFile
      paeStr distStr).reportFile with
  | none => ⟨none, false⟩
  | some txt =>
    match env.parse txt with
    | none => ⟨none, false⟩
    | some df =>
      if df.rows.isEmpty then ⟨none, false⟩
      else
        ⟨some (addMeta df p), env.fs.contains txt && dirname txt == ""⟩

/-- `all_results` after the main loop: the contributed tables in pair
order. -/
def collectResults (envf : Pair → PairEnv) (script paeStr distStr : String)
    (pairs : List Pair) : List ResultTable :=
  pairs.filterMap (fun p => (processPair (envf p) script paeStr distStr p).contributed)

/-! ## Output writing -/

/-- Filename piece for one `Type` value (`str(nan)` is `"nan"`). -/
def optValStr : Option String → String
  | some s => s
  | none => "nan"

/-- Rows whose `Type` cell equals `v` under pandas equality. -/
def typeSel (t : ResultTable) (v : Option String) : List Row :=
  t.rows.filter (fun r => cellEq (r.lookup "Type") v)

/-- First-occurrence deduplication worker. -/
def dedupFirstGo : List (Option String) → List (Option String) → List (Option String)
  | [], _ => []
  | v :: rest, seen =>
    if seen.contains v then dedupFirstGo rest seen
    else v :: dedupFirstGo rest (seen ++ [v])

/-- Model of `Series.unique`: values in order of first appearance, a missing
value (NaN) included. -/
def dedupFirst (l : List (Option String)) : List (Option String) :=
  dedupFirstGo l []

/-- Model of `combined_df[Type].unique()`. -/
def uniqueTypes (t : ResultTable) : List (Option String) :=
  dedupFirst (t.rows.map (fun r => r.lookup "Type"))

/-- The per-`Type` files: one per distinct observed value whose selection is
non-empty, named `<pfx>_<value>.csv`. -/
def typeFiles (pfx : String) (t : ResultTable) : List (String × List Row) :=
  (uniqueTypes t).filterMap (fun v =>
    if (typeSel t v).isEmpty then none
    else some (pfx ++ "_" ++ optValStr v ++ ".csv", typeSel t v))

/-- Rows with `Chn1 == "A"` and `Chn2 == "B"` under pandas equality. -/
def abRows (t : ResultTable) : List Row :=
  t.rows.filter (fun r =>
    cellEq (r.lookup "Chn1") (some "A") && cellEq (r.lookup "Chn2") (some "B"))

/-- Rows with `Chn1 == "B"` and `Chn2 == "A"` under pandas equality. -/
def baRows (t : ResultTable) : List Row :=
  t.rows.filter (fun r =>
    cellEq (r.lookup "Chn1") (some "B") && cellEq (r.lookup "Chn2") (some "A"))

/-- The chain-direction files; an empty selection produces no file. -/
def chnFiles (pfx : String) (t : ResultTable) : List (String × List Row) :=
  (if (abRows t).isEmpty then [] else [(pfx ++ "_A_to_B.csv", abRows t)]) ++
  (if (baRows t).isEmpty then [] else [(pfx ++ "_B_to_A.csv", baRows t)])

/-- All files written from the combined table, in write order.  As in the
source, the chain-direction block is nested inside the `Type` block, and the
complete file is always written. -/
def writeOutputs (pfx : String) (t : ResultTable) : List (String × List Row) :=
  (if t.cols.contains "Type" then
    typeFiles pfx t ++
      (if t.cols.contains "Chn1" && t.cols.contains "Chn2" then chnFiles pfx t
       else [])
   else []) ++ [(pfx ++ "_complete.csv", t.rows)]

/-- Everything `main` observes: the two existence checks on its arguments,
the discovery layout, the per-pair environments, and the formatted cutoff
strings. -/
structure World where
  outDirExists : Bool
  scriptExists : Bool
  outDir : String
  script : String
  layout : Layout
  env : Pair → PairEnv
  paeStr : String
  distStr : String

/-- The pairs discovery finds in a world. -/
def discoveredPairs (w : World) : List Pair :=
  (find_boltz_structures w.outDir w.layout).1

/-- The tables the main loop accumulates in a world. -/
def runResults (w : World) : List ResultTable :=
  collectResults w.env w.script w.paeStr w.distStr (discoveredPairs w)

/-- What a run produced: the files written and the process exit status. -/
structure MainResult where
  outputs : List (String × List Row)
  exitCode : Nat
  deriving DecidableEq

/-- Model of `main`: argument validation exits with status 1, as does an
empty discovery; a run whose every pair failed writes nothing and falls off
the end of `main` with status 0; otherwise the combined table's files are
written and the status is 0. -/
def mainRun (w : World) (pfx : String) : MainResult :=
  if !w.outDirExists then ⟨[], 1⟩
  else if !w.scriptExists then ⟨[], 1⟩
  else if (discoveredPairs w).isEmpty then ⟨[], 1⟩
  else if (runResults w).isEmpty then ⟨[], 0⟩
  else ⟨writeOutputs pfx (concatTables (runResults w)), 0⟩

/-! ## Concrete example data used by the witnesses and counterexamples -/

/-- A layout with one well-formed PAE/CIF pair and one orphan PAE file. -/
def exLayoutC4 : Layout :=
  ⟨true, [⟨"g", true, ["pae_g_model_0.npz", "g_model_0.cif", "pae_g_model_1.npz"]⟩,
          ⟨"junk", false, []⟩]⟩

/-- A world whose `predictions` directory is missing. -/
def exWorldC5 : World :=
  ⟨true, true, "out", "ipsae.py", ⟨false, []⟩,
   fun _ => ⟨.ok, [], fun _ => none⟩, "15.0", "15.0"⟩

/-- A per-pair environment in which the external command always fails. -/
def failEnv : Pair → PairEnv :=
  fun _ => ⟨.calledProcessError "" "", [], fun _ => none⟩

/-- A world with one discovered pair whose invocation fails, so that no
ResultTable is ever produced. -/
def exWorldC2 : World :=
  ⟨true, true, "out", "ipsae.py",
   ⟨true, [⟨"g", true, ["pae_g_model_0.npz", "g_model_0.cif"]⟩]⟩,
   failEnv, "15.0", "15.0"⟩

/-- The single pair of the example layout. -/
def pairG : Pair := mkPair "out" "g" "pae_g_model_0.npz"

/-- An environment whose report parses to a header-only table. -/
def emptyTableEnv : PairEnv :=
  ⟨.ok, ["g_model_0_15.0_15.0.txt"], fun _ => some ⟨["Chn1", "Chn2"], []⟩⟩

/-- A parsed table that already carries an `input_name` column. -/
def tMetaEx : ResultTable :=
  ⟨["input_name", "Score"], [[("input_name", "old"), ("Score", "1")]]⟩

/-- The row of `tMetaEx` after the provenance assignments for `pairG`. -/
def metaRowEx : Row :=
  [("input_name", "g"), ("Score", "1"),
   ("pae_file", "pae_g_model_0.npz"), ("cif_file", "g_model_0.cif")]

/-- A table with only a `Chn1` column. -/
def tChn : ResultTable := ⟨["Chn1"], [[("Chn1", "A")]]⟩

/-- A table with only a `Score` column, disjoint from `tChn`. -/
def tScore : ResultTable := ⟨["Score"], [[("Score", "3")]]⟩

/-- A world whose two pairs succeed and parse into tables with disjoint
column sets. -/
def exWorldC8 : World :=
  ⟨true, true, "out", "ipsae.py",
   ⟨true, [⟨"g", true, ["pae_g_model_0.npz", "g_model_0.cif"]⟩,
           ⟨"k", true, ["pae_k_model_0.npz", "k_model_0.cif"]⟩]⟩,
   fun _ => ⟨.ok, ["g_model_0_15.0_15.0.txt", "k_model_0_15.0_15.0.txt"],
     fun txt => if txt == "g_model_0_15.0_15.0.txt" then some tChn else some tScore⟩,
   "15.0", "15.0"⟩

/-- A combined table with `Chn1`/`Chn2` columns and a matching A→B row but
no `Type` column. -/
def dfC1 : ResultTable := ⟨["Chn1", "Chn2"], [[("Chn1", "A"), ("Chn2", "B")]]⟩

/-- A combined table with `Type`, `Chn1` and `Chn2` columns and A→B, B→A
and A→A rows. -/
def dfC1w : ResultTable :=
  ⟨["Type", "Chn1", "Chn2"],
   [[("Type", "asym"), ("Chn1", "A"), ("Chn2", "B")],
    [("Type", "asym"), ("Chn1", "B"), ("Chn2", "A")],
    [("Type", "asym"), ("Chn1", "A"), ("Chn2", "A")]]⟩

/-- A parsed table with only a `Type` column. -/
def tTypeOnly : ResultTable := ⟨["Type"], [[("Type", "asym")]]⟩

/-- A parsed table with only a `Score` column. -/
def tScoreOnly : ResultTable := ⟨["Score"], [[("Score", "1")]]⟩

/-- The union concatenation of the two: its second row has a missing
`Type` cell. -/
def dfC7 : ResultTable := concatTables [tTypeOnly, tScoreOnly]

/-- A combined table with two present `Type` values. -/
def dfC7w : ResultTable :=
  ⟨["Type", "Score"],
   [[("Type", "asym"), ("Score", "1")], [("Type", "max"), ("Score", "2")]]⟩

/-! ## Discovery lemmas and claim C4 -/

theorem scanFolder_counts (outDir folder : String) (paeList allFiles : List String) :
    (scanFolder outDir folder paeList allFiles).1.length
      = (paeList.filter (fun pb => allFiles.contains (cifNameFor folder pb))).length ∧
    (scanFolder outDir folder paeList allFiles).2
      = (paeList.filter (fun pb => !(allFiles.contains (cifNameFor folder pb)))).length := by
  induction paeList with
  | nil => simp [scanFolder]
  | cons pb rest ih =>
    by_cases h : cifNameFor folder pb ∈ allFiles <;>
      simp [scanFolder, h, List.filter_cons, ih.1, ih.2]

theorem scanFolder_mem (outDir folder : String) (paeList allFiles : List String)
    (p : Pair) :
    p ∈ (scanFolder outDir folder paeList allFiles).1 ↔
      ∃ pb ∈ paeList, cifNameFor folder pb ∈ allFiles ∧
        p = mkPair outDir folder pb := by
  induction paeList with
  | nil => simp [scanFolder]
  | cons pb rest ih =>
    by_cases h : cifNameFor folder pb ∈ allFiles
    · simp [scanFolder, h, ih]
    · simp [scanFolder, h, ih]

theorem findGo_counts (outDir : String) (entries : List DirEntry) :
    (findGo outDir entries).1.length
      = ((entries.filter (fun e => e.isDir)).map wellFormedPaeCount).sum ∧
    (findGo outDir entries).2
      = ((entries.filter (fun e => e.isDir)).map orphanPaeCount).sum := by
  induction entries with
  | nil => simp [findGo]
  | cons e rest ih =>
    by_cases h : e.isDir <;>
      simp [findGo, h, List.filter_cons, ih.1, ih.2, wellFormedPaeCount,
        orphanPaeCount, (scanFolder_counts outDir e.name _ e.files).1,
        (scanFolder_counts outDir e.name _ e.files).2]

theorem findGo_mem (outDir : String) (entries : List DirEntry) (p : Pair) :
    p ∈ (findGo outDir entries).1 ↔
      ∃ e ∈ entries, e.isDir = true ∧ ∃ pb ∈ e.files,
        matchesPae e.name pb = true ∧
        cifNameFor e.name pb ∈ e.files ∧
        p = mkPair outDir e.name pb := by
  induction entries with
  | nil => simp [findGo]
  | cons e rest ih =>
    by_cases h : e.isDir = true <;>
      simp [findGo, h, ih, scanFolder_mem, List.mem_filter] <;> aesop

/-- C4: on a layout whose `predictions` directory exists, discovery emits
exactly one StructurePair per PAE file that matches the naming convention
and has its CIF sibling listed, logs exactly one warning per matched PAE
file without its CIF sibling, and every emitted pair comes from a folder
listing containing both files. -/
theorem C4_discovery_counts (outDir : String) (layout : Layout)
    (h : layout.predictionsExists = true) :
    (find_boltz_structures outDir layout).1.length = totalWellFormed layout ∧
    (find_boltz_structures outDir layout).2 = totalOrphan layout ∧
    ∀ p ∈ (find_boltz_structures outDir layout).1,
      ∃ e ∈ layout.entries, e.isDir = true ∧ ∃ pb ∈ e.files,
        matchesPae e.name pb = true ∧
        cifNameFor e.name pb ∈ e.files ∧
        p = mkPair outDir e.name pb := by
  have hf : find_boltz_structures outDir layout = findGo outDir layout.entries := by
    simp [find_boltz_structures, h]
  refine ⟨?_, ?_, ?_⟩
  · rw [hf]; exact (findGo_counts outDir layout.entries).1
  · rw [hf]; exact (findGo_counts outDir layout.entries).2
  · intro p hp
    rw [hf] at hp
    exact (findGo_mem outDir layout.entries p).mp hp

theorem C4_discovery_counts_witness :
    exLayoutC4.predictionsExists = true ∧
    ((find_boltz_structures "out" exLayoutC4).1.length = totalWellFormed exLayoutC4 ∧
     (find_boltz_structures "out" exLayoutC4).2 = totalOrphan exLayoutC4 ∧
     ∀ p ∈ (find_boltz_structures "out" exLayoutC4).1,
       ∃ e ∈ exLayoutC4.entries, e.isDir = true ∧ ∃ pb ∈ e.files,
         matchesPae e.name pb = true ∧
         cifNameFor e.name pb ∈ e.files ∧
         p = mkPair "out" e.name pb) :=
  ⟨rfl, C4_discovery_counts "out" exLayoutC4 rfl⟩

/-! ## Fatal-exit claims C5 and C2 -/

/-- C5: a run whose `predictions` subdirectory is absent, or whose discovery
finds zero pairs, writes no output file and exits with a non-zero status. -/
theorem C5_fatal_empty_discovery (w : World) (pfx : String)
    (h : w.layout.predictionsExists = false ∨ discoveredPairs w = []) :
    (mainRun w pfx).outputs = [] ∧ (mainRun w pfx).exitCode ≠ 0 := by
  have hp : discoveredPairs w = [] := by
    rcases h with h | h
    · simp [discoveredPairs, find_boltz_structures, h]
    · exact h
  cases hw : w.outDirExists <;> cases hs : w.scriptExists <;>
    simp [mainRun, hw, hs, hp]

theorem C5_fatal_empty_discovery_witness :
    (exWorldC5.layout.predictionsExists = false ∨ discoveredPairs exWorldC5 = []) ∧
    ((mainRun exWorldC5 "ipsae_results").outputs = [] ∧
     (mainRun exWorldC5 "ipsae_results").exitCode ≠ 0) :=
  ⟨Or.inl rfl, C5_fatal_empty_discovery exWorldC5 "ipsae_results" (Or.inl rfl)⟩

/-- C2, counterexample: in a run with one discovered pair where every pair
fails, the code writes no file but falls off the end of `main` with exit
status 0, not the non-zero status the claim asserts. -/
theorem C2_counterexample :
    discoveredPairs exWorldC2 ≠ [] ∧
    runResults exWorldC2 = [] ∧
    (mainRun exWorldC2 "ipsae_results").outputs = [] ∧
    (mainRun exWorldC2 "ipsae_results").exitCode = 0 :=
  ⟨by decide, by decide, by decide, by decide⟩

/-- C2, amended: a run that discovers pairs but produces no ResultTable
writes no output file and exits with status zero (the "No results to save!"
branch does not call `sys.exit`). -/
theorem C2_no_results_exit_zero (w : World) (pfx : String)
    (h1 : w.outDirExists = true) (h2 : w.scriptExists = true)
    (hp : discoveredPairs w ≠ []) (hr : runResults w = []) :
    (mainRun w pfx).outputs = [] ∧ (mainRun w pfx).exitCode = 0 := by
  simp [mainRun, h1, h2, hp, hr]

theorem C2_no_results_exit_zero_witness :
    (exWorldC2.outDirExists = true ∧ exWorldC2.scriptExists = true ∧
     discoveredPairs exWorldC2 ≠ [] ∧ runResults exWorldC2 = []) ∧
    ((mainRun exWorldC2 "ipsae_results").outputs = [] ∧
     (mainRun exWorldC2 "ipsae_results").exitCode = 0) :=
  ⟨⟨rfl, rfl, by decide, by decide⟩,
   C2_no_results_exit_zero exWorldC2 "ipsae_results" rfl rfl (by decide) (by decide)⟩

/-! ## Invoker claims C3 and C6 -/

theorem run_ipsae_cmd (fs : List String) (outcome : InvokeOutcome)
    (script paeFile cifFile paeStr distStr : String) :
    (run_ipsae fs outcome script paeFile cifFile paeStr distStr).cmd
      = ["python", script, paeFile, cifFile, paeStr, distStr] := by
  cases outcome with
  | ok =>
    by_cases hc : expectedReportName cifFile paeStr distStr ∈ fs
    · simp [run_ipsae, hc]
    · by_cases hd : pathJoin (dirname cifFile) (expectedReportName cifFile paeStr distStr) ∈ fs <;>
        simp [run_ipsae, hc, hd]
  | calledProcessError so se => rfl
  | unexpectedError m => rfl

/-- C3: on a successful invocation, the expected report name is the CIF
basename without extension joined with the two cutoff strings — the same
strings passed as the command's third and fourth arguments — and it is
looked up first as a bare name in the working directory, then next to the
CIF file; the first existing path is returned, and failure with a warning
results when neither exists. -/
theorem C3_report_location (fs : List String)
    (script paeFile cifFile paeStr distStr : String) :
    (run_ipsae fs .ok script paeFile cifFile paeStr distStr).cmd
      = ["python", script, paeFile, cifFile, paeStr, distStr] ∧
    (run_ipsae fs .ok script paeFile cifFile paeStr distStr).cmd.drop 4
      = [paeStr, distStr] ∧
    expectedReportName cifFile paeStr distStr
      = splitextStem (basename cifFile) ++ "_" ++ paeStr ++ "_" ++ distStr ++ ".txt" ∧
    (fs.contains (expectedReportName cifFile paeStr distStr) = true →
      (run_ipsae fs .ok script paeFile cifFile paeStr distStr).reportFile
        = some (expectedReportName cifFile paeStr distStr)) ∧
    (fs.contains (expectedReportName cifFile paeStr distStr) = false →
      fs.contains (pathJoin (dirname cifFile) (expectedReportName cifFile paeStr distStr)) = true →
      (run_ipsae fs .ok script paeFile cifFile paeStr distStr).reportFile
        = some (pathJoin (dirname cifFile) (expectedReportName cifFile paeStr distStr))) ∧
    (fs.contains (expectedReportName cifFile paeStr distStr) = false →
      fs.contains (pathJoin (dirname cifFile) (expectedReportName cifFile paeStr distStr)) = false →
      (run_ipsae fs .ok script paeFile cifFile paeStr distStr).reportFile = none ∧
      (run_ipsae fs .ok script paeFile cifFile paeStr distStr).warned = true) := by
  refine ⟨run_ipsae_cmd fs .ok script paeFile cifFile paeStr distStr, ?_, rfl, ?_, ?_, ?_⟩
  · rw [run_ipsae_cmd]; rfl
  · intro h1
    have h1m : expectedReportName cifFile paeStr distStr ∈ fs := by simpa using h1
    simp [run_ipsae, h1m]
  · intro h1 h2
    have h1m : expectedReportName cifFile paeStr distStr ∉ fs := by simpa using h1
    have h2m : pathJoin (dirname cifFile) (expectedReportName cifFile paeStr distStr) ∈ fs := by
      simpa using h2
    simp [run_ipsae, h1m, h2m]
  · intro h1 h2
    have h1m : expectedReportName cifFile paeStr distStr ∉ fs := by simpa using h1
    have h2m : pathJoin (dirname cifFile) (expectedReportName cifFile paeStr distStr) ∉ fs := by
      simpa using h2
    simp [run_ipsae, h1m, h2m]

theorem C3_report_location_witness :
    (["g_model_0_15.0_15.0.txt"].contains
        (expectedReportName "out/predictions/g/g_model_0.cif" "15.0" "15.0") = true) ∧
    (run_ipsae ["g_model_0_15.0_15.0.txt"] .ok "ipsae.py"
        "out/predictions/g/pae_g_model_0.npz" "out/predictions/g/g_model_0.cif"
        "15.0" "15.0").reportFile
      = some (expectedReportName "out/predictions/g/g_model_0.cif" "15.0" "15.0") :=
  ⟨by decide,
   (C3_report_location ["g_model_0_15.0_15.0.txt"] "ipsae.py"
      "out/predictions/g/pae_g_model_0.npz" "out/predictions/g/g_model_0.cif"
      "15.0" "15.0").2.2.2.1 (by decide)⟩

/-- C6: an external-command failure or an unexpected exception yields a
failure result for that pair alone — the invoker returns no report file,
the pair contributes nothing — and the batch continues: dropping a failed
pair from the front of the worklist leaves the accumulated results of the
remaining pairs unchanged. -/
theorem C6_failure_isolated (envf : Pair → PairEnv)
    (script paeStr distStr : String) (p : Pair) (rest : List Pair)
    (h : (processPair (envf p) script paeStr distStr p).contributed = none) :
    (∀ so se, (run_ipsae (envf p).fs (.calledProcessError so se) script
        p.paeFile p.cifFile paeStr distStr).reportFile = none) ∧
    (∀ m, (run_ipsae (envf p).fs (.unexpectedError m) script
        p.paeFile p.cifFile paeStr distStr).reportFile = none) ∧
    (∀ so se, (processPair ⟨.calledProcessError so se, (envf p).fs, (envf p).parse⟩
        script paeStr distStr p).contributed = none) ∧
    (∀ m, (processPair ⟨.unexpectedError m, (envf p).fs, (envf p).parse⟩
        script paeStr distStr p).contributed = none) ∧
    collectResults envf script paeStr distStr (p :: rest)
      = collectResults envf script paeStr distStr rest := by
  refine ⟨fun so se => rfl, fun m => rfl, fun so se => rfl, fun m => rfl, ?_⟩
  simp [collectResults, List.filterMap_cons, h]

theorem C6_failure_isolated_witness :
    (processPair (failEnv pairG) "ipsae.py" "15.0" "15.0" pairG).contributed = none ∧
    collectResults failEnv "ipsae.py" "15.0" "15.0" [pairG]
      = collectResults failEnv "ipsae.py" "15.0" "15.0" [] :=
  ⟨rfl, (C6_failure_isolated failEnv "ipsae.py" "15.0" "15.0" pairG [] rfl).2.2.2.2⟩

/-! ## Claim C10: header-only reports -/

/-- C10: a report that parses to a table with zero rows is handled exactly
like a parse failure — the pair contributes nothing, so no provenance
columns are attached, and the working-directory cleanup is skipped. -/
theorem C10_empty_table_like_parse_failure (env : PairEnv)
    (script paeStr distStr : String) (p : Pair) (txt : String) (df : ResultTable)
    (hrun : (run_ipsae env.fs env.outcome script p.paeFile p.cifFile
        paeStr distStr).reportFile = some txt)
    (hparse : env.parse txt = some df) (hempty : df.rows = []) :
    processPair env script paeStr distStr p = ⟨none, false⟩ ∧
    processPair env script paeStr distStr p
      = processPair ⟨env.outcome, env.fs, fun _ => none⟩ script paeStr distStr p := by
  constructor <;> simp [processPair, hrun, hparse, hempty]

theorem C10_empty_table_like_parse_failure_witness :
    ((run_ipsae emptyTableEnv.fs emptyTableEnv.outcome "ipsae.py"
        pairG.paeFile pairG.cifFile "15.0" "15.0").reportFile
      = some "g_model_0_15.0_15.0.txt" ∧
     emptyTableEnv.parse "g_model_0_15.0_15.0.txt" = some ⟨["Chn1", "Chn2"], []⟩ ∧
     (⟨["Chn1", "Chn2"], []⟩ : ResultTable).rows = []) ∧
    processPair emptyTableEnv "ipsae.py" "15.0" "15.0" pairG = ⟨none, false⟩ :=
  ⟨⟨by decide, rfl, rfl⟩,
   (C10_empty_table_like_parse_failure emptyTableEnv "ipsae.py" "15.0" "15.0"
      pairG "g_model_0_15.0_15.0.txt" ⟨["Chn1", "Chn2"], []⟩
      (by decide) rfl rfl).1⟩

/-! ## Row lookup lemmas and claim C9 -/

theorem lookup_eq_none_of_not_any (r : Row) (c : String)
    (h : r.any (fun pr => pr.1 == c) = false) : r.lookup c = none := by
  induction r with
  | nil => rfl
  | cons pr rest ih =>
    rcases pr with ⟨k, w⟩
    simp only [List.any_cons, Bool.or_eq_false_iff] at h
    have hk : (c == k) = false := by
      simp only [beq_eq_false_iff_ne] at h ⊢
      exact fun hc => h.1 hc.symm
    simp [List.lookup_cons, hk, ih h.2]

theorem lookup_append_sing (r : Row) (c v : String) (h : r.lookup c = none) :
    (r ++ [(c, v)]).lookup c = some v := by
  induction r with
  | nil => simp [List.lookup_cons]
  | cons pr rest ih =>
    rcases pr with ⟨k, w⟩
    by_cases hk : (c == k) = true
    · simp [List.lookup_cons, hk] at h
    · rw [Bool.not_eq_true] at hk
      simp only [List.lookup_cons, hk] at h
      simp [List.lookup_cons, hk, ih h]

theorem lookup_append_sing_ne (r : Row) (c v c2 : String) (hne : c2 ≠ c) :
    (r ++ [(c, v)]).lookup c2 = r.lookup c2 := by
  induction r with
  | nil => simp [List.lookup_cons, beq_false_of_ne hne]
  | cons pr rest ih =>
    rcases pr with ⟨k, w⟩
    by_cases h2 : c2 = k
    · subst h2
      simp [List.lookup_cons]
    · simp [List.lookup_cons, beq_false_of_ne h2, ih]

theorem lookup_map_overwrite (r : Row) (c v : String)
    (h : r.any (fun pr => pr.1 == c) = true) :
    (r.map (fun pr => if pr.1 == c then (pr.1, v) else pr)).lookup c = some v := by
  induction r with
  | nil => simp at h
  | cons pr rest ih =>
    rcases pr with ⟨k, w⟩
    by_cases hk : k = c
    · subst hk
      simp [List.lookup_cons]
    · have hck : (c == k) = false := beq_false_of_ne fun hc => hk hc.symm
      have hself : (k == c) = false := beq_false_of_ne hk
      simp only [List.any_cons, hself, Bool.false_or] at h
      simp [List.lookup_cons, hck, hk]
      simpa using ih h

theorem lookup_setCell_self (r : Row) (c v : String) :
    (setCell r c v).lookup c = some v := by
  unfold setCell
  by_cases h : r.any (fun pr => pr.1 == c) = true
  · rw [if_pos h]; exact lookup_map_overwrite r c v h
  · rw [if_neg h]
    rw [Bool.not_eq_true] at h
    exact lookup_append_sing r c v (lookup_eq_none_of_not_any r c h)

theorem lookup_setCell_ne (r : Row) (c v c2 : String) (hne : c2 ≠ c) :
    (setCell r c v).lookup c2 = r.lookup c2 := by
  unfold setCell
  by_cases h : r.any (fun pr => pr.1 == c) = true
  · rw [if_pos h]
    clear h
    induction r with
    | nil => rfl
    | cons pr rest ih =>
      rcases pr with ⟨k, w⟩
      by_cases hk : k = c
      · subst hk
        simp [List.lookup_cons, beq_false_of_ne hne]
        simpa using ih
      · by_cases h2 : c2 = k
        · subst h2
          simp [List.lookup_cons, hk]
        · simp [List.lookup_cons, hk, beq_false_of_ne h2]
          simpa using ih
  · rw [if_neg h]
    exact lookup_append_sing_ne r c v c2 hne

/-- C9: after the provenance assignments, every row reads the pair's group
name under `input_name` and the two basenames under `pae_file` and
`cif_file` — also when the parsed report already had such columns, whose
values are overwritten. -/
theorem C9_provenance_columns (t : ResultTable) (p : Pair) :
    ∀ r ∈ (addMeta t p).rows,
      r.lookup "input_name" = some p.inputName ∧
      r.lookup "pae_file" = some (basename p.paeFile) ∧
      r.lookup "cif_file" = some (basename p.cifFile) := by
  intro r hr
  simp only [addMeta, setTableCol, List.mem_map] at hr
  obtain ⟨r2, hr2, hre⟩ := hr
  obtain ⟨r1, hr1, hr1e⟩ := hr2
  obtain ⟨r0, hr0, hr0e⟩ := hr1
  subst hre hr1e hr0e
  refine ⟨?_, ?_, ?_⟩
  · rw [lookup_setCell_ne _ _ _ _ (by decide), lookup_setCell_ne _ _ _ _ (by decide),
      lookup_setCell_self]
  · rw [lookup_setCell_ne _ _ _ _ (by decide), lookup_setCell_self]
  · rw [lookup_setCell_self]

theorem C9_provenance_columns_witness :
    metaRowEx ∈ (addMeta tMetaEx pairG).rows ∧
    (metaRowEx.lookup "input_name" = some pairG.inputName ∧
     metaRowEx.lookup "pae_file" = some (basename pairG.paeFile) ∧
     metaRowEx.lookup "cif_file" = some (basename pairG.cifFile)) :=
  ⟨by decide, C9_provenance_columns tMetaEx pairG metaRowEx (by decide)⟩

/-! ## Concatenation lemmas and claim C8 -/

theorem concat_cols_mem (ts : List ResultTable) (c : String) :
    c ∈ (concatTables ts).cols ↔ ∃ t ∈ ts, c ∈ t.cols := by
  suffices h : ∀ acc : List String,
      c ∈ ts.foldl (fun acc t => acc ++ t.cols.filter (fun x => !(acc.contains x))) acc
        ↔ c ∈ acc ∨ ∃ t ∈ ts, c ∈ t.cols by
    simpa [concatTables] using h []
  induction ts with
  | nil => intro acc; simp
  | cons t rest ih =>
    intro acc
    simp only [List.foldl_cons, ih, List.mem_append, List.mem_filter]
    constructor
    · rintro ((hacc | ⟨hc, _⟩) | ⟨u, hu, hc⟩)
      · exact Or.inl hacc
      · exact Or.inr ⟨t, List.mem_cons_self t rest, hc⟩
      · exact Or.inr ⟨u, List.mem_cons_of_mem t hu, hc⟩
    · rintro (hacc | ⟨u, hu, hc⟩)
      · exact Or.inl (Or.inl hacc)
      · rcases List.mem_cons.mp hu with rfl | hu
        · by_cases ha : c ∈ acc
          · exact Or.inl (Or.inl ha)
          · exact Or.inl (Or.inr ⟨hc, by simpa using ha⟩)
        · exact Or.inr ⟨u, hu, hc⟩

theorem concat_rows (ts : List ResultTable) :
    (concatTables ts).rows = (ts.map ResultTable.rows).flatten := rfl

theorem lookup_eq_none_of_not_mem_keys (r : Row) (c : String)
    (h : c ∉ r.map Prod.fst) : r.lookup c = none := by
  induction r with
  | nil => rfl
  | cons pr rest ih =>
    rcases pr with ⟨k, w⟩
    simp only [List.map_cons, List.mem_cons] at h
    push_neg at h
    simp [List.lookup_cons, beq_false_of_ne h.1, ih h.2]

/-- C8: a run that accumulated at least one ResultTable writes the file
list of the combined table, which always includes `<prefix>_complete.csv`
with all rows; the combined column set is the union by name of the
tables' columns, the rows are the tables' rows in order, and a row of an
aligned table reads an absent value under any column its table lacked. -/
theorem C8_complete_and_union (w : World) (pfx : String)
    (h1 : w.outDirExists = true) (h2 : w.scriptExists = true)
    (h3 : runResults w ≠ []) :
    (mainRun w pfx).outputs = writeOutputs pfx (concatTables (runResults w)) ∧
    (pfx ++ "_complete.csv", (concatTables (runResults w)).rows)
      ∈ (mainRun w pfx).outputs ∧
    (∀ c, c ∈ (concatTables (runResults w)).cols ↔ ∃ t ∈ runResults w, c ∈ t.cols) ∧
    (concatTables (runResults w)).rows = ((runResults w).map ResultTable.rows).flatten ∧
    (∀ t ∈ runResults w, Aligned t → ∀ r ∈ t.rows, ∀ c, c ∉ t.cols →
      r.lookup c = none) := by
  have hpairs : ¬(discoveredPairs w).isEmpty = true := by
    intro hp
    apply h3
    simp only [List.isEmpty_iff] at hp
    simp [runResults, collectResults, hp]
  have hres : ¬(runResults w).isEmpty = true := by
    simpa [List.isEmpty_iff] using h3
  have hmain : mainRun w pfx
      = ⟨writeOutputs pfx (concatTables (runResults w)), 0⟩ := by
    simp [mainRun, h1, h2, hpairs, hres]
  refine ⟨by rw [hmain], ?_, fun c => concat_cols_mem (runResults w) c,
    concat_rows (runResults w), ?_⟩
  · rw [hmain]
    simp [writeOutputs]
  · intro t ht hal r hr c hc
    apply lookup_eq_none_of_not_mem_keys
    rw [hal r hr]
    exact hc

theorem C8_complete_and_union_witness :
    (exWorldC8.outDirExists = true ∧ exWorldC8.scriptExists = true ∧
     runResults exWorldC8 ≠ []) ∧
    ((mainRun exWorldC8 "r").outputs
        = writeOutputs "r" (concatTables (runResults exWorldC8)) ∧
     ("r" ++ "_complete.csv", (concatTables (runResults exWorldC8)).rows)
        ∈ (mainRun exWorldC8 "r").outputs ∧
     (∀ c, c ∈ (concatTables (runResults exWorldC8)).cols
        ↔ ∃ t ∈ runResults exWorldC8, c ∈ t.cols) ∧
     (concatTables (runResults exWorldC8)).rows
        = ((runResults exWorldC8).map ResultTable.rows).flatten ∧
     (∀ t ∈ runResults exWorldC8, Aligned t → ∀ r ∈ t.rows, ∀ c, c ∉ t.cols →
        r.lookup c = none)) :=
  ⟨⟨rfl, rfl, by decide⟩, C8_complete_and_union exWorldC8 "r" rfl rfl (by decide)⟩

/-! ## Claim C1: the chain-direction files -/

theorem strAppend_ne_of_ne (s a b : String) (h : a ≠ b) : s ++ a ≠ s ++ b := by
  intro he
  apply h
  have hd := congrArg String.data he
  rw [String.data_append, String.data_append] at hd
  have hab := List.append_cancel_left hd
  cases a; cases b
  exact congrArg String.mk hab

/-- C1, counterexample: on a combined table with `Chn1` and `Chn2` columns,
a non-empty A→B selection, but no `Type` column, the code writes only the
complete file — the chain-direction block is nested inside the `Type`
block, so no `_A_to_B.csv` is produced, contradicting "regardless of
whether a Type column is present". -/
theorem C1_counterexample :
    dfC1.cols.contains "Chn1" = true ∧
    dfC1.cols.contains "Chn2" = true ∧
    dfC1.cols.contains "Type" = false ∧
    abRows dfC1 = [[("Chn1", "A"), ("Chn2", "B")]] ∧
    (writeOutputs "ipsae_results" dfC1).map Prod.fst
      = ["ipsae_results_complete.csv"] :=
  ⟨rfl, rfl, rfl, by decide, by decide⟩

/-- C1, amended: for a combined table in which both `Chn1` and `Chn2`
columns exist AND a `Type` column also exists, the pipeline writes
`<prefix>_A_to_B.csv` with exactly the rows where `Chn1 = "A"` and
`Chn2 = "B"` when that selection is non-empty and no such file otherwise,
and symmetrically for `<prefix>_B_to_A.csv`; when no `Type` column exists,
only the complete file is written. -/
theorem C1_chain_direction_files (pfx : String) (t : ResultTable)
    (h1 : t.cols.contains "Chn1" = true) (h2 : t.cols.contains "Chn2" = true) :
    (t.cols.contains "Type" = true →
      ((abRows t ≠ [] → (pfx ++ "_A_to_B.csv", abRows t) ∈ writeOutputs pfx t) ∧
       (abRows t = [] → ∀ rows, (pfx ++ "_A_to_B.csv", rows) ∉ chnFiles pfx t) ∧
       (baRows t ≠ [] → (pfx ++ "_B_to_A.csv", baRows t) ∈ writeOutputs pfx t) ∧
       (baRows t = [] → ∀ rows, (pfx ++ "_B_to_A.csv", rows) ∉ chnFiles pfx t))) ∧
    (t.cols.contains "Type" = false →
      writeOutputs pfx t = [(pfx ++ "_complete.csv", t.rows)]) := by
  have hm1 : "Chn1" ∈ t.cols := by simpa using h1
  have hm2 : "Chn2" ∈ t.cols := by simpa using h2
  constructor
  · intro hT
    have hTm : "Type" ∈ t.cols := by simpa using hT
    refine ⟨?_, ?_, ?_, ?_⟩
    · intro hab
      have hin : (pfx ++ "_A_to_B.csv", abRows t) ∈ chnFiles pfx t := by
        simp [chnFiles, hab]
      simp [writeOutputs, hTm, hm1, hm2]
      tauto
    · intro hab rows hmem
      simp only [chnFiles, hab, List.isEmpty_nil, if_true, List.nil_append] at hmem
      cases hba : (baRows t).isEmpty with
      | true => simp [hba] at hmem
      | false =>
        rw [if_neg (by simp [hba])] at hmem
        simp only [List.mem_singleton, Prod.mk.injEq] at hmem
        exact strAppend_ne_of_ne pfx "_A_to_B.csv" "_B_to_A.csv" (by decide) hmem.1
    · intro hba
      have hin : (pfx ++ "_B_to_A.csv", baRows t) ∈ chnFiles pfx t := by
        cases hab : (abRows t).isEmpty <;> simp [chnFiles, hba, hab]
      simp [writeOutputs, hTm, hm1, hm2]
      tauto
    · intro hba rows hmem
      simp only [chnFiles, hba, List.isEmpty_nil, if_true, List.append_nil] at hmem
      cases hab : (abRows t).isEmpty with
      | true => simp [hab] at hmem
      | false =>
        rw [if_neg (by simp [hab])] at hmem
        simp only [List.mem_singleton, Prod.mk.injEq] at hmem
        exact strAppend_ne_of_ne pfx "_B_to_A.csv" "_A_to_B.csv" (by decide) hmem.1
  · intro hT
    have hTm : "Type" ∉ t.cols := by simpa using hT
    simp [writeOutputs, hTm]

theorem C1_chain_direction_files_witness :
    (dfC1w.cols.contains "Chn1" = true ∧ dfC1w.cols.contains "Chn2" = true ∧
     dfC1w.cols.contains "Type" = true ∧ abRows dfC1w ≠ []) ∧
    ("p" ++ "_A_to_B.csv", abRows dfC1w) ∈ writeOutputs "p" dfC1w :=
  ⟨⟨rfl, rfl, rfl, by decide⟩,
   ((C1_chain_direction_files "p" dfC1w rfl rfl).1 rfl).1 (by decide)⟩

/-! ## Type-partition lemmas and claim C7 -/

theorem filter_eq_nil_of_all_false {α : Type} (l : List α) (p : α → Bool)
    (h : ∀ a ∈ l, p a = false) : l.filter p = [] := by
  induction l with
  | nil => rfl
  | cons a rest ih =>
    simp [List.filter_cons, h a (List.mem_cons_self a rest),
      ih (fun b hb => h b (List.mem_cons_of_mem a hb))]

theorem sum_map_add {α : Type} (l : List α) (f g : α → Nat) :
    (l.map (fun a => f a + g a)).sum = (l.map f).sum + (l.map g).sum := by
  induction l with
  | nil => rfl
  | cons a rest ih => simp [ih]; omega

theorem sum_indicator {α : Type} (l : List α) (p : α → Bool) :
    (l.map (fun a => if p a then 1 else 0)).sum = (l.filter p).length := by
  induction l with
  | nil => rfl
  | cons a rest ih =>
    by_cases h : p a <;> simp [List.filter_cons, h, ih] <;> omega

theorem sum_filter_lengths {α β : Type} (l : List α) (vs : List β)
    (q : α → β → Bool) :
    (vs.map (fun v => (l.filter (fun a => q a v)).length)).sum
      = (l.map (fun a => (vs.filter (fun v => q a v)).length)).sum := by
  induction vs with
  | nil => simp
  | cons v rest ih =>
    simp only [List.map_cons, List.sum_cons, ih]
    have h1 : l.map (fun a => ((v :: rest).filter (fun w => q a w)).length)
        = l.map (fun a => (if q a v then 1 else 0)
            + (rest.filter (fun w => q a w)).length) := by
      apply List.map_congr_left
      intro a _
      by_cases h : q a v <;> simp [List.filter_cons, h] <;> omega
    rw [h1, sum_map_add, sum_indicator]

theorem dedupFirstGo_mem (l seen : List (Option String)) (v : Option String) :
    v ∈ dedupFirstGo l seen ↔ v ∈ l ∧ v ∉ seen := by
  induction l generalizing seen with
  | nil => simp [dedupFirstGo]
  | cons a rest ih =>
    by_cases h : a ∈ seen
    · simp only [dedupFirstGo]
      rw [if_pos (by simpa using h), ih]
      simp only [List.mem_cons]
      constructor
      · rintro ⟨hv, hs⟩
        exact ⟨Or.inr hv, hs⟩
      · rintro ⟨(rfl | hv), hs⟩
        · exact absurd h hs
        · exact ⟨hv, hs⟩
    · simp only [dedupFirstGo]
      rw [if_neg (by simpa using h)]
      simp only [List.mem_cons, ih, List.mem_append, List.mem_singleton]
      constructor
      · rintro (rfl | ⟨hv, hs⟩)
        · exact ⟨Or.inl rfl, h⟩
        · exact ⟨Or.inr hv, fun hseen => hs (Or.inl hseen)⟩
      · rintro ⟨(rfl | hv), hs⟩
        · exact Or.inl rfl
        · by_cases hva : v = a
          · exact Or.inl hva
          · exact Or.inr ⟨hv, fun hc =>
              hc.elim hs (fun hc2 => hc2.elim hva (List.not_mem_nil v))⟩

theorem dedupFirstGo_nodup (l seen : List (Option String)) :
    (dedupFirstGo l seen).Nodup := by
  induction l generalizing seen with
  | nil => simp [dedupFirstGo]
  | cons a rest ih =>
    by_cases h : a ∈ seen
    · simp only [dedupFirstGo]
      rw [if_pos (by simpa using h)]
      exact ih seen
    · simp only [dedupFirstGo]
      rw [if_neg (by simpa using h)]
      refine List.nodup_cons.mpr ⟨?_, ih (seen ++ [a])⟩
      intro hmem
      rcases (dedupFirstGo_mem rest (seen ++ [a]) a).mp hmem with ⟨_, hs⟩
      exact hs (by simp)

theorem uniqueTypes_nodup (t : ResultTable) : (uniqueTypes t).Nodup :=
  dedupFirstGo_nodup _ []

theorem uniqueTypes_mem (t : ResultTable) (v : Option String) :
    v ∈ uniqueTypes t ↔ v ∈ t.rows.map (fun r => r.lookup "Type") := by
  unfold uniqueTypes dedupFirst
  rw [dedupFirstGo_mem]
  simp

theorem cellEq_none_right (x : Option String) : cellEq x none = false := by
  cases x <;> rfl

theorem typeSel_none (t : ResultTable) : typeSel t none = [] := by
  unfold typeSel
  exact filter_eq_nil_of_all_false _ _ (fun r _ => cellEq_none_right (r.lookup "Type"))

theorem cellEq_some_self (a : String) : cellEq (some a) (some a) = true := by
  simp [cellEq]

theorem typeSel_some_ne_nil (t : ResultTable) (s : String)
    (h : some s ∈ uniqueTypes t) : typeSel t (some s) ≠ [] := by
  rw [uniqueTypes_mem] at h
  rcases List.mem_map.mp h with ⟨r, hr, hlook⟩
  intro hnil
  have hmem : r ∈ typeSel t (some s) := by
    unfold typeSel
    refine List.mem_filter.mpr ⟨hr, ?_⟩
    rw [hlook]
    exact cellEq_some_self s
  rw [hnil] at hmem
  exact absurd hmem (List.not_mem_nil r)

theorem typeFiles_mem_of_uniq (pfx : String) (t : ResultTable) (s : String)
    (h : some s ∈ uniqueTypes t) :
    (pfx ++ "_" ++ s ++ ".csv", typeSel t (some s)) ∈ typeFiles pfx t := by
  unfold typeFiles
  apply List.mem_filterMap.mpr
  refine ⟨some s, h, ?_⟩
  rw [if_neg (fun hc => typeSel_some_ne_nil t s h (List.isEmpty_iff.mp hc))]
  rfl

theorem typeFiles_mem_inv (pfx : String) (t : ResultTable) (e : String × List Row)
    (h : e ∈ typeFiles pfx t) :
    ∃ s : String, some s ∈ uniqueTypes t ∧
      e = (pfx ++ "_" ++ s ++ ".csv", typeSel t (some s)) := by
  unfold typeFiles at h
  rcases List.mem_filterMap.mp h with ⟨v, hv, hveq⟩
  cases v with
  | none => simp [typeSel_none] at hveq
  | some s =>
    cases hie : (typeSel t (some s)).isEmpty
    · rw [if_neg (by simp [hie])] at hveq
      exact ⟨s, hv, (Option.some_inj.mp hveq).symm⟩
    · rw [if_pos (by simp [hie])] at hveq
      exact absurd hveq (by simp)

theorem typeFiles_length (pfx : String) (t : ResultTable) :
    (typeFiles pfx t).length = ((uniqueTypes t).filter (fun v => v.isSome)).length := by
  unfold typeFiles
  have hgen : ∀ vs : List (Option String),
      (∀ v ∈ vs, v.isSome = true → typeSel t v ≠ []) →
      (vs.filterMap (fun v => if (typeSel t v).isEmpty then none
        else some (pfx ++ "_" ++ optValStr v ++ ".csv", typeSel t v))).length
        = (vs.filter (fun v => v.isSome)).length := by
    intro vs
    induction vs with
    | nil => intro _; rfl
    | cons v rest ih =>
      intro hvs
      have hrest := ih (fun w hw => hvs w (List.mem_cons_of_mem v hw))
      cases v with
      | none =>
        have h1 : (typeSel t none).isEmpty = true := by rw [typeSel_none]; rfl
        simp only [List.filterMap_cons, List.filter_cons, h1, if_true,
          Option.isSome_none, Bool.false_eq_true, if_false]
        exact hrest
      | some s =>
        have hne : typeSel t (some s) ≠ [] :=
          hvs (some s) (List.mem_cons_self _ _) rfl
        have hie : (typeSel t (some s)).isEmpty = false := by
          cases hs : (typeSel t (some s)).isEmpty
          · rfl
          · exact absurd (List.isEmpty_iff.mp hs) hne
        simp only [List.filterMap_cons, List.filter_cons, hie,
          Bool.false_eq_true, if_false, Option.isSome_some, if_true,
          List.length_cons]
        rw [hrest]
  exact hgen (uniqueTypes t) (fun v hv hs => by
    cases v with
    | none => simp at hs
    | some s => exact typeSel_some_ne_nil t s hv)

theorem typeFiles_sum (pfx : String) (t : ResultTable) :
    ((typeFiles pfx t).map (fun e => e.2.length)).sum
      = ((uniqueTypes t).map (fun v => (typeSel t v).length)).sum := by
  unfold typeFiles
  generalize uniqueTypes t = vs
  induction vs with
  | nil => rfl
  | cons v rest ih =>
    cases hie : (typeSel t v).isEmpty
    · simp only [List.filterMap_cons, hie, Bool.false_eq_true, if_false,
        List.map_cons, List.sum_cons]
      rw [ih]
    · have hsel : typeSel t v = [] := List.isEmpty_iff.mp hie
      simp only [List.filterMap_cons, hie, if_true, List.map_cons, List.sum_cons]
      rw [ih, hsel]
      simp

theorem filter_cellEq_some_len (vs : List (Option String)) (hnd : vs.Nodup)
    (a : String) (hx : some a ∈ vs) :
    (vs.filter (fun v => cellEq (some a) v)).length = 1 := by
  induction vs with
  | nil => simp at hx
  | cons v rest ih =>
    rcases List.nodup_cons.mp hnd with ⟨hnv, hnrest⟩
    rcases List.mem_cons.mp hx with he | hxr
    · have hveq : v = some a := he.symm
      subst hveq
      have htail : rest.filter (fun v => cellEq (some a) v) = [] := by
        apply filter_eq_nil_of_all_false
        intro w hw
        cases w with
        | none => rfl
        | some b =>
          by_cases hab : a = b
          · subst hab
            exact absurd hw hnv
          · simp [cellEq, beq_false_of_ne hab]
      simp [List.filter_cons, cellEq_some_self, htail]
    · have hv : cellEq (some a) v = false := by
        cases v with
        | none => rfl
        | some b =>
          by_cases hab : a = b
          · subst hab
            exact absurd hxr hnv
          · simp [cellEq, beq_false_of_ne hab]
      simp [List.filter_cons, hv, ih hnrest hxr]

theorem filter_cellEq_len (vs : List (Option String)) (hnd : vs.Nodup)
    (x : Option String) (hmem : x.isSome = true → x ∈ vs) :
    (vs.filter (fun v => cellEq x v)).length = if x.isSome then 1 else 0 := by
  cases x with
  | none =>
    have hnil : vs.filter (fun v => cellEq none v) = [] :=
      filter_eq_nil_of_all_false _ _ (fun v _ => by cases v <;> rfl)
    simp [hnil]
  | some a =>
    simp only [Option.isSome_some, if_true]
    exact filter_cellEq_some_len vs hnd a (hmem rfl)

theorem typeFiles_partition_sum (pfx : String) (t : ResultTable) :
    ((typeFiles pfx t).map (fun e => e.2.length)).sum
      = (t.rows.filter (fun r => (r.lookup "Type").isSome)).length := by
  rw [typeFiles_sum]
  have h1 : ((uniqueTypes t).map (fun v => (typeSel t v).length)).sum
      = (t.rows.map (fun r => ((uniqueTypes t).filter
          (fun v => cellEq (r.lookup "Type") v)).length)).sum := by
    unfold typeSel
    exact sum_filter_lengths t.rows (uniqueTypes t)
      (fun r v => cellEq (r.lookup "Type") v)
  rw [h1]
  have h2 : t.rows.map (fun r => ((uniqueTypes t).filter
        (fun v => cellEq (r.lookup "Type") v)).length)
      = t.rows.map (fun r => if (r.lookup "Type").isSome then 1 else 0) := by
    apply List.map_congr_left
    intro r hr
    exact filter_cellEq_len (uniqueTypes t) (uniqueTypes_nodup t) (r.lookup "Type")
      (fun _ => (uniqueTypes_mem t _).mpr (List.mem_map.mpr ⟨r, hr, rfl⟩))
  rw [h2, sum_indicator]

/-- C7, amended: for a combined table with a `Type` column, the per-type
files — each written into the output list — are exactly one file per
distinct PRESENT `Type` value observed, each containing exactly the rows
whose `Type` equals that value, and their row counts sum to the number of
rows carrying a present `Type` value.  Rows whose `Type` cell is missing
(possible after the union concatenation) appear in no per-type file, and
the missing value produces no file. -/
theorem C7_type_partition (pfx : String) (t : ResultTable)
    (hT : t.cols.contains "Type" = true) :
    (∀ e ∈ typeFiles pfx t, e ∈ writeOutputs pfx t) ∧
    (∀ s : String, some s ∈ uniqueTypes t →
      (pfx ++ "_" ++ s ++ ".csv", typeSel t (some s)) ∈ typeFiles pfx t) ∧
    (∀ e ∈ typeFiles pfx t, ∃ s : String, some s ∈ uniqueTypes t ∧
      e = (pfx ++ "_" ++ s ++ ".csv", typeSel t (some s))) ∧
    (typeFiles pfx t).length = ((uniqueTypes t).filter (fun v => v.isSome)).length ∧
    ((typeFiles pfx t).map (fun e => e.2.length)).sum
      = (t.rows.filter (fun r => (r.lookup "Type").isSome)).length := by
  refine ⟨?_, fun s hs => typeFiles_mem_of_uniq pfx t s hs,
    fun e he => typeFiles_mem_inv pfx t e he,
    typeFiles_length pfx t, typeFiles_partition_sum pfx t⟩
  intro e he
  have hTm : "Type" ∈ t.cols := by simpa using hT
  simp [writeOutputs, hTm]
  tauto

/-- C7, counterexample: on the concatenation of a table with a `Type`
column and one without, two distinct `Type` values are observed
(`"asym"` and the missing value) but only one file is produced, and the
per-type row counts sum to 1 while the complete table has 2 rows — the
files do not partition the combined table's rows. -/
theorem C7_counterexample :
    dfC7.cols.contains "Type" = true ∧
    uniqueTypes dfC7 = [some "asym", none] ∧
    (typeFiles "p" dfC7).map Prod.fst = ["p_asym.csv"] ∧
    ((typeFiles "p" dfC7).map (fun e => e.2.length)).sum = 1 ∧
    dfC7.rows.length = 2 ∧
    (writeOutputs "p" dfC7).map Prod.fst = ["p_asym.csv", "p_complete.csv"] :=
  ⟨by decide, by decide, by decide, by decide, by decide, by decide⟩

theorem C7_type_partition_witness :
    dfC7w.cols.contains "Type" = true ∧
    ((∀ e ∈ typeFiles "p" dfC7w, e ∈ writeOutputs "p" dfC7w) ∧
     (∀ s : String, some s ∈ uniqueTypes dfC7w →
       ("p" ++ "_" ++ s ++ ".csv", typeSel dfC7w (some s)) ∈ typeFiles "p" dfC7w) ∧
     (∀ e ∈ typeFiles "p" dfC7w, ∃ s : String, some s ∈ uniqueTypes dfC7w ∧
       e = ("p" ++ "_" ++ s ++ ".csv", typeSel dfC7w (some s))) ∧
     (typeFiles "p" dfC7w).length
        = ((uniqueTypes dfC7w).filter (fun v => v.isSome)).length ∧
     ((typeFiles "p" dfC7w).map (fun e => e.2.length)).sum
        = (dfC7w.rows.filter (fun r => (r.lookup "Type").isSome)).length) :=
  ⟨rfl, C7_type_partition "p" dfC7w rfl⟩

end IpsaeBatch
